import Mathlib

/-!
Verification of the missing_text PDF extraction core
(src/missing_text/extract/pdf.py) by shallow embedding.

Paths are modelled as lists of POSIX components.  A raw (not yet
resolved) path records whether it is absolute and its component list;
resolution joins to the working directory and collapses the special
components, as pathlib's Path.resolve does (symlink following is not
modelled; the filesystem is an explicit parameter elsewhere).  The
external engines (pymupdf, pandas, pytesseract, base64) are opaque
collaborators: their outputs are carried as data in the document model,
and their possible exceptions are carried as an explicit error channel.
-/

namespace MissingText

/-- A fully resolved absolute path: its list of components. -/
abbrev AbsPath := List String

/-- A path as given by the caller: absolute or relative, raw components
(which may include the special components "." and ".."). -/
structure RawPath where
  absolute : Bool
  comps : List String
  deriving Repr, DecidableEq

/-- Collapse "." and ".." components onto an accumulator of already
resolved components, as Path.resolve does lexically. -/
def resolveComps : AbsPath → List String → AbsPath
  | acc, [] => acc
  | acc, c :: rest =>
    if c = "." then resolveComps acc rest
    else if c = ".." then resolveComps acc.dropLast rest
    else resolveComps (acc ++ [c]) rest

/-- Path(file_path).resolve(): relative paths are joined to the current
working directory, then "." and ".." are collapsed. -/
def RawPath.resolve (cwd : AbsPath) (p : RawPath) : AbsPath :=
  resolveComps (if p.absolute then [] else cwd) p.comps

/-- Render an absolute path as a POSIX string (for error messages). -/
def pathToString (p : AbsPath) : String :=
  "/" ++ String.intercalate "/" p

/-- Index of the last dot in a list of characters, if any. -/
def lastDotIdx : List Char → Option Nat
  | [] => none
  | c :: rest =>
    match lastDotIdx rest with
    | some i => some (i + 1)
    | none => if c = '.' then some 0 else none

/-- PurePath.suffix applied to one name: the substring from the last
dot, provided that dot is neither the first nor the last character;
otherwise the empty string. -/
def nameSuffix (name : String) : String :=
  let cs := name.toList
  match lastDotIdx cs with
  | some i => if 0 < i ∧ i < cs.length - 1 then String.mk (cs.drop i) else ""
  | none => ""

/-- Path.suffix: the suffix of the final component (the empty string
for the root path). -/
def pathSuffix (p : AbsPath) : String :=
  nameSuffix (p.getLast?.getD "")

/-- Lower-casing of a string, character by character (str.lower on the
ASCII extensions this code compares). -/
def strToLower (s : String) : String :=
  String.mk (s.toList.map Char.toLower)

/-- SafeModeConfig: the process-wide security policy.  base_directory
is stored already resolved. -/
structure SafeModeConfig where
  enabled : Bool
  base_directory : AbsPath
  allowed_extensions : List String
  deriving Repr, DecidableEq

/-- SafeModeConfig.__init__: base_directory defaults to the working
directory and is resolved; allowed_extensions defaults to the singleton
.pdf set, also when an empty (falsy) set is supplied. -/
def mkSafeModeConfig (cwd : AbsPath) (enabled : Bool)
    (base_directory : Option RawPath) (allowed_extensions : Option (List String)) :
    SafeModeConfig :=
  { enabled := enabled
    base_directory := (base_directory.getD ⟨true, cwd⟩).resolve cwd
    allowed_extensions :=
      match allowed_extensions with
      | some exts => if exts = [] then [".pdf"] else exts
      | none => [".pdf"] }

/-- set_safe_mode: replaces the global policy wholesale with a freshly
constructed SafeModeConfig. -/
def set_safe_mode (cwd : AbsPath) (enabled : Bool)
    (base_directory : Option RawPath) (allowed_extensions : Option (List String)) :
    SafeModeConfig :=
  mkSafeModeConfig cwd enabled base_directory allowed_extensions

/-- PDFProcessingError carries only a message in the source; here each
message family is a constructor so that statements can speak about the
kind of failure.  PDFError.message recovers the exact message text. -/
inductive PDFError where
  | accessDenied (path : AbsPath)
  | invalidFileType (sfx : String)
  | fileNotFound (what : String)
  | corruptPDF (msg : String)
  | notADirectory (path : AbsPath)
  | invalidInput (path : AbsPath)
  | extractionFailed (msg : String)
  deriving Repr, DecidableEq

/-- Message text of each error, matching the f-strings of the source. -/
def PDFError.message : PDFError → String
  | .accessDenied p => "Access denied: " ++ pathToString p ++ " is outside the allowed directory."
  | .invalidFileType s => "Invalid file type: " ++ s
  | .fileNotFound w => "File not found: " ++ w
  | .corruptPDF m => "Invalid or corrupted PDF file: " ++ m
  | .notADirectory p => "Not a directory: " ++ pathToString p
  | .invalidInput p => "Invalid input: " ++ pathToString p ++ " is neither a valid PDF file nor a directory."
  | .extractionFailed m => "Failed to extract content from PDF: " ++ m

/-- Errors of the PathAccessError kind of the specification: the path
resolves outside the permitted root, or has a disallowed extension. -/
def PDFError.isPathAccess : PDFError → Bool
  | .accessDenied _ => true
  | .invalidFileType _ => true
  | _ => false

/-- validate_path (pdf.py lines 153-163): resolve the candidate; when
the safe_mode argument is set, require the resolved path to lie under
the policy base directory (Path.is_relative_to, a component-wise
prefix test) and its lower-cased suffix to be an allowed extension.
The stored policy field enabled is never consulted. -/
def validate_path (g : SafeModeConfig) (cwd : AbsPath) (file_path : RawPath)
    (safe_mode : Bool := true) : Except PDFError AbsPath :=
  let path := file_path.resolve cwd
  if safe_mode then
    if ¬ (g.base_directory.isPrefixOf path) then
      .error (.accessDenied path)
    else if ¬ (strToLower (pathSuffix path) ∈ g.allowed_extensions) then
      .error (.invalidFileType (pathSuffix path))
    else
      .ok path
  else
    .ok path

example :
    validate_path ⟨true, ["root", "allowed"], [".pdf"]⟩ ["root"]
      ⟨true, ["root", "allowed", "x.pdf"]⟩ true = .ok ["root", "allowed", "x.pdf"] := rfl

example :
    validate_path ⟨true, ["root", "allowed"], [".pdf"]⟩ ["root"]
      ⟨true, ["root", "allowed-other", "x.pdf"]⟩ true
      = .error (.accessDenied ["root", "allowed-other", "x.pdf"]) := rfl

example :
    validate_path ⟨true, ["root", "allowed"], [".pdf"]⟩ ["root"]
      ⟨true, ["root", "..", "etc", "passwd"]⟩ true
      = .error (.accessDenied ["etc", "passwd"]) := rfl

example :
    validate_path ⟨true, ["root", "allowed"], [".pdf"]⟩ ["root"]
      ⟨true, ["root", "allowed", "x.TXT"]⟩ true = .error (.invalidFileType ".TXT") := rfl

example :
    validate_path ⟨true, ["root", "allowed"], [".pdf"]⟩ ["root"]
      ⟨true, ["etc", "passwd"]⟩ false = .ok ["etc", "passwd"] := rfl

/-- Exceptions raised by the external engines, by class: the except
clauses of the extractors dispatch on these classes. -/
inductive EngErr where
  | valueError (msg : String)
  | runtimeError (msg : String)
  | fileNotFoundError (msg : String)
  | otherError (msg : String)
  deriving Repr, DecidableEq

/-- One extracted table: row mappings plus column/shape metadata, as
assembled from the engine's table detection via the tabular converter
(an opaque collaborator: its JSON-safe scalars are carried as strings). -/
structure TableResult where
  content : List (List (String × String))
  columns : List String
  shape : Nat × Nat
  deriving Repr, DecidableEq

/-- One extracted image: OCR text, base64 image bytes, xref tag. -/
structure ImageResult where
  content : String
  image_data : String
  xref : Nat
  deriving Repr, DecidableEq

/-- Raw image bytes as returned by doc.extract_image. -/
structure ImgBlob where
  img : List Nat
  deriving Repr, DecidableEq

/-- One page of an opened document, as the opaque engine presents it:
the values its delegated calls would return, plus the exception any of
them would raise on this page, if one would. -/
structure RawPage where
  text : String
  tables : List TableResult
  imageXrefs : List Nat
  pageFailure : Option EngErr

/-- An opened document handle: its pages in physical order, and the
xref lookup backing doc.extract_image (none models a falsy result). -/
structure Doc where
  pages : List RawPage
  extractImage : Nat → Option ImgBlob

/-- The remaining opaque collaborators: OCR and base64 encoding. -/
structure EngineOps where
  ocr : ImgBlob → String
  b64 : ImgBlob → String

/-- Helper _extract_text_from_page: delegates to the engine. -/
def extract_text_from_page (p : RawPage) : String := p.text

/-- Helper _extract_tables_from_page: delegates to the engine and the
tabular converter. -/
def extract_tables_from_page (p : RawPage) : List TableResult := p.tables

/-- Helper _extract_images_from_page: enumerate the page's image list;
for each xref, extract the image; skip falsy results; OCR and encode. -/
def extract_images_from_page (eng : EngineOps) (p : RawPage) (doc : Doc) :
    List ImageResult :=
  p.imageXrefs.filterMap fun xref =>
    match doc.extractImage xref with
    | some blob => some { content := eng.ocr blob, image_data := eng.b64 blob, xref := xref }
    | none => none

/-- One page's assembled output dict. -/
structure PageContent where
  text : String
  tables : List TableResult
  images : List ImageResult
  deriving Repr, DecidableEq

/-- The extracted_content dict: page-separated results. -/
structure DocResult where
  pages : List PageContent
  deriving Repr, DecidableEq

/-- Body of one page-loop iteration: either one of the three delegated
calls raises, or the page dict is assembled from their results. -/
def processPage (eng : EngineOps) (doc : Doc) (p : RawPage) : Except EngErr PageContent :=
  match p.pageFailure with
  | some e => .error e
  | none =>
    .ok { text := extract_text_from_page p
          tables := extract_tables_from_page p
          images := extract_images_from_page eng p doc }

/-- Input to an extraction call: in-memory bytes or a path. -/
inductive PDFInput where
  | bytes (data : List Nat)
  | path (p : RawPath)

/-- An exception propagating inside the try block of an extractor:
either a PDFProcessingError raised by this code, or an engine error. -/
inductive Raised where
  | pdf (e : PDFError)
  | eng (e : EngErr)

/-- The filesystem and document engine as one explicit environment. -/
structure FileSystem where
  cwd : AbsPath
  isFile : AbsPath → Bool
  isDir : AbsPath → Bool
  openPath : AbsPath → Except EngErr Doc
  openBytes : List Nat → Except EngErr Doc
  walkFiles : AbsPath → List (AbsPath × String)

/-- The opening block shared verbatim by sync_extract_pdf (lines
198-204) and async_extract_pdf (lines 312-318): bytes open directly;
a path is validated, required to be a file, then opened. -/
def open_document (fs : FileSystem) (g : SafeModeConfig) (input_data : PDFInput)
    (safe_mode : Bool) : Except Raised Doc :=
  match input_data with
  | .bytes data =>
    match fs.openBytes data with
    | .ok doc => .ok doc
    | .error e => .error (.eng e)
  | .path p =>
    match validate_path g fs.cwd p safe_mode with
    | .error e => .error (.pdf e)
    | .ok file_path =>
      if ¬ fs.isFile file_path then
        .error (.pdf (.fileNotFound (pathToString file_path)))
      else
        match fs.openPath file_path with
        | .ok doc => .ok doc
        | .error e => .error (.eng e)

/-- The synchronous page loop (lines 209-220): pages in increasing
index order, each appended after the previous; the first engine error
aborts the loop. -/
def sync_pages_loop (eng : EngineOps) (doc : Doc) :
    List RawPage → Except EngErr (List PageContent)
  | [] => .ok []
  | p :: rest =>
    match processPage eng doc p with
    | .error e => .error e
    | .ok c =>
      match sync_pages_loop eng doc rest with
      | .error e => .error e
      | .ok cs => .ok (c :: cs)

/-- The asynchronous page loop (lines 323-336): identical except for
the await asyncio.sleep(0) after each appended page; the second
component counts those suspensions. -/
def async_pages_loop (eng : EngineOps) (doc : Doc) :
    List RawPage → (Except EngErr (List PageContent)) × Nat
  | [] => (.ok [], 0)
  | p :: rest =>
    match processPage eng doc p with
    | .error e => (.error e, 0)
    | .ok c =>
      match async_pages_loop eng doc rest with
      | (.error e, n) => (.error e, n + 1)
      | (.ok cs, n) => (.ok (c :: cs), n + 1)

/-- The except clauses of both extractors (lines 225-231 / 341-347):
ValueError and RuntimeError become the corrupted-file error,
FileNotFoundError the not-found error, and any other exception --
including a PDFProcessingError raised inside the try block -- is
wrapped into the generic failure message. -/
def handleExcept : Raised → PDFError
  | .eng (.valueError m) => .corruptPDF m
  | .eng (.runtimeError m) => .corruptPDF m
  | .eng (.fileNotFoundError m) => .fileNotFound m
  | .eng (.otherError m) => .extractionFailed m
  | .pdf e => .extractionFailed e.message

/-- Result of one extraction call, together with the number of
document handles opened by the call and never closed during it (the
source contains no close call on any path). -/
structure CallOutcome where
  result : Except PDFError DocResult
  openHandles : Nat

/-- The undecorated body of sync_extract_pdf (lines 184-231). -/
def sync_extract_pdf_inner (eng : EngineOps) (fs : FileSystem) (g : SafeModeConfig)
    (input_data : PDFInput) (safe_mode : Bool := true) : CallOutcome :=
  match open_document fs g input_data safe_mode with
  | .error r => { result := .error (handleExcept r), openHandles := 0 }
  | .ok doc =>
    match sync_pages_loop eng doc doc.pages with
    | .error e => { result := .error (handleExcept (.eng e)), openHandles := 1 }
    | .ok pages => { result := .ok { pages := pages }, openHandles := 1 }

/-- The with_safe_mode decorator (lines 166-180): saves the global
enabled flag, overwrites it with the safe_mode keyword, runs the
wrapped function WITHOUT forwarding that keyword (the wrapper consumes
it), and restores the flag in a finally block.  Returns the wrapped
function's value and the global policy after the call. -/
def with_safe_mode {α : Type} (func : SafeModeConfig → α) (g : SafeModeConfig)
    (safe_mode : Bool := true) : α × SafeModeConfig :=
  let gNow : SafeModeConfig := { g with enabled := safe_mode }
  (func gNow, { gNow with enabled := g.enabled })

/-- A decorated synchronous call: its outcome and the global policy
once the decorator has restored the enabled flag. -/
structure SyncCall where
  outcome : CallOutcome
  cfgAfter : SafeModeConfig

/-- The public sync_extract_pdf: the decorated inner body.  Because
the wrapper consumes the safe_mode keyword, the inner body runs with
its own default safe_mode = true regardless of the argument. -/
def sync_extract_pdf (eng : EngineOps) (fs : FileSystem) (g : SafeModeConfig)
    (input_data : PDFInput) (safe_mode : Bool := true) : SyncCall :=
  let r := with_safe_mode (fun gNow => sync_extract_pdf_inner eng fs gNow input_data) g safe_mode
  { outcome := r.1, cfgAfter := r.2 }

/-- Result of one asynchronous extraction call, with its suspension
count (asyncio.sleep occurrences awaited). -/
structure AsyncCall where
  outcome : CallOutcome
  yields : Nat

/-- async_extract_pdf (lines 298-347): undecorated, so its safe_mode
argument reaches validate_path; otherwise the same body as the
synchronous extractor with a suspension after each page. -/
def async_extract_pdf (eng : EngineOps) (fs : FileSystem) (g : SafeModeConfig)
    (input_data : PDFInput) (safe_mode : Bool := true) : AsyncCall :=
  match open_document fs g input_data safe_mode with
  | .error r => { outcome := { result := .error (handleExcept r), openHandles := 0 }, yields := 0 }
  | .ok doc =>
    match async_pages_loop eng doc doc.pages with
    | (.error e, n) =>
      { outcome := { result := .error (handleExcept (.eng e)), openHandles := 1 }, yields := n }
    | (.ok pages, n) =>
      { outcome := { result := .ok { pages := pages }, openHandles := 1 }, yields := n }

/-- Path.relative_to as used at line 255: computed against the raw
root argument as given, not against the resolved directory.  pathlib
drops "." components when parsing the argument and requires the
argument's parts to be a prefix of the (absolute, resolved) child's
parts, otherwise it raises ValueError; none models that ValueError. -/
def relative_to (child : AbsPath) (raw : RawPath) : Option (List String) :=
  let rcomps := raw.comps.filter (fun c => ¬ (c = "."))
  if raw.absolute ∧ rcomps.isPrefixOf child then some (child.drop rcomps.length)
  else none

/-- String form of a relative path, as str() renders it. -/
def relKeyStr (rel : List String) : String :=
  if rel = [] then "." else String.intercalate "/" rel

/-- traverse_directory (lines 466-491): validate the root, require a
directory, then walk it; every candidate root/file is validated and
files failing validation are skipped, not fatal. -/
def traverse_directory (fs : FileSystem) (g : SafeModeConfig) (directory_path : RawPath)
    (safe_mode : Bool := true) : Except PDFError (List AbsPath) :=
  match validate_path g fs.cwd directory_path safe_mode with
  | .error e => .error e
  | .ok directory =>
    if ¬ fs.isDir directory then .error (.notADirectory directory)
    else
      .ok ((fs.walkFiles directory).filterMap fun rf =>
        (validate_path g fs.cwd ⟨true, rf.1 ++ [rf.2]⟩ safe_mode).toOption)

/-- The per-file loop of sync_extract_pdfs_from_directory (lines
252-262), threading the global policy through the decorated calls: a
file is recorded only when its extraction succeeds and its
relativization against the raw root argument succeeds; both failure
kinds are caught, logged and skipped. -/
def batch_files_loop (eng : EngineOps) (fs : FileSystem) (directory_path : RawPath)
    (safe_mode : Bool) : List AbsPath → SafeModeConfig →
    (List (String × DocResult)) × SafeModeConfig
  | [], gNow => ([], gNow)
  | fp :: rest, gNow =>
    let call := sync_extract_pdf eng fs gNow (.path ⟨true, fp⟩) safe_mode
    let next := batch_files_loop eng fs directory_path safe_mode rest call.cfgAfter
    match call.outcome.result, relative_to fp directory_path with
    | .ok content, some rel => ((relKeyStr rel, content) :: next.1, next.2)
    | _, _ => next

/-- sync_extract_pdfs_from_directory (lines 234-264): validate the
root, require a directory, then run the per-file loop over the walked
files; only root-level problems surface as errors. -/
def sync_extract_pdfs_from_directory (eng : EngineOps) (fs : FileSystem)
    (g : SafeModeConfig) (directory_path : RawPath) (safe_mode : Bool := true) :
    (Except PDFError (List (String × DocResult))) × SafeModeConfig :=
  match validate_path g fs.cwd directory_path safe_mode with
  | .error e => (.error e, g)
  | .ok directory =>
    if ¬ fs.isDir directory then (.error (.notADirectory directory), g)
    else
      match traverse_directory fs g directory_path safe_mode with
      | .error e => (.error e, g)
      | .ok files =>
        let r := batch_files_loop eng fs directory_path safe_mode files g
        (.ok r.1, r.2)

/-- async_extract_pdfs_from_directory (lines 350-381): as the
synchronous batch, but the per-file calls are undecorated and receive
the safe_mode argument directly; no global policy mutation occurs. -/
def async_extract_pdfs_from_directory (eng : EngineOps) (fs : FileSystem)
    (g : SafeModeConfig) (directory_path : RawPath) (safe_mode : Bool := true) :
    Except PDFError (List (String × DocResult)) :=
  match validate_path g fs.cwd directory_path safe_mode with
  | .error e => .error e
  | .ok directory =>
    if ¬ fs.isDir directory then .error (.notADirectory directory)
    else
      match traverse_directory fs g directory_path safe_mode with
      | .error e => .error e
      | .ok files =>
        .ok (files.filterMap fun fp =>
          match (async_extract_pdf eng fs g (.path ⟨true, fp⟩) safe_mode).outcome.result,
                relative_to fp directory_path with
          | .ok content, some rel => some (relKeyStr rel, content)
          | _, _ => none)

/-- Output of the dispatch layer: a single document or a batch. -/
inductive ExtractOutput where
  | single (d : DocResult)
  | batch (m : List (String × DocResult))

/-- extract_pdfs_sync (lines 426-443): bytes go straight to the
document extractor; otherwise validate, then route directory / file /
anything else. -/
def extract_pdfs_sync (eng : EngineOps) (fs : FileSystem) (g : SafeModeConfig)
    (input_path : PDFInput) (safe_mode : Bool := true) :
    (Except PDFError ExtractOutput) × SafeModeConfig :=
  match input_path with
  | .bytes data =>
    let c := sync_extract_pdf eng fs g (.bytes data) safe_mode
    (c.outcome.result.map .single, c.cfgAfter)
  | .path p =>
    match validate_path g fs.cwd p safe_mode with
    | .error e => (.error e, g)
    | .ok path =>
      if fs.isDir path then
        let r := sync_extract_pdfs_from_directory eng fs g ⟨true, path⟩ safe_mode
        (r.1.map .batch, r.2)
      else if fs.isFile path then
        let c := sync_extract_pdf eng fs g (.path ⟨true, path⟩) safe_mode
        (c.outcome.result.map .single, c.cfgAfter)
      else
        (.error (.invalidInput path), g)

/-- extract_pdfs_async (lines 446-463): the same routing over the
asynchronous variants. -/
def extract_pdfs_async (eng : EngineOps) (fs : FileSystem) (g : SafeModeConfig)
    (input_path : PDFInput) (safe_mode : Bool := true) :
    Except PDFError ExtractOutput :=
  match input_path with
  | .bytes data =>
    ((async_extract_pdf eng fs g (.bytes data) safe_mode).outcome.result).map .single
  | .path p =>
    match validate_path g fs.cwd p safe_mode with
    | .error e => .error e
    | .ok path =>
      if fs.isDir path then
        (async_extract_pdfs_from_directory eng fs g ⟨true, path⟩ safe_mode).map .batch
      else if fs.isFile path then
        ((async_extract_pdf eng fs g (.path ⟨true, path⟩) safe_mode).outcome.result).map .single
      else
        .error (.invalidInput path)

/-- What extract_pdfs hands back: in a synchronous context the
finished sync result together with the restored global policy; in an
asynchronous context a scheduled task whose eventual value is the
async variant's result. -/
inductive DispatchOutcome where
  | finished (r : Except PDFError ExtractOutput) (gAfter : SafeModeConfig)
  | task (r : Except PDFError ExtractOutput)

/-- extract_pdfs (lines 387-423): auto-detects the ambient execution
context (_is_running_async) and calls the matching variant. -/
def extract_pdfs (eng : EngineOps) (fs : FileSystem) (runningAsync : Bool)
    (g : SafeModeConfig) (input_path : PDFInput) (safe_mode : Bool := true) :
    DispatchOutcome :=
  if runningAsync then
    .task (extract_pdfs_async eng fs g input_path safe_mode)
  else
    let r := extract_pdfs_sync eng fs g input_path safe_mode
    .finished r.1 r.2

/-! Concrete example world used by the witnesses and counterexamples. -/

/-- Example image blob. -/
def exBlob : ImgBlob := ⟨[1, 2, 3]⟩

/-- Example engine collaborators with fixed outputs. -/
def exEng : EngineOps := { ocr := fun _ => "ocr-text", b64 := fun _ => "AQID" }

/-- Example table. -/
def exTable : TableResult := { content := [[("a", "1")]], columns := ["a"], shape := (1, 1) }

/-- Example page 0: text only. -/
def exPage0 : RawPage := { text := "Hello", tables := [], imageXrefs := [], pageFailure := none }

/-- Example page 1: text, one table, one image. -/
def exPage1 : RawPage := { text := "World", tables := [exTable], imageXrefs := [7], pageFailure := none }

/-- Example two-page document. -/
def exDoc : Doc :=
  { pages := [exPage0, exPage1]
    extractImage := fun x => if x = 7 then some exBlob else none }

/-- Example page on which the engine raises mid-extraction. -/
def exBadPage : RawPage :=
  { text := "", tables := [], imageXrefs := [], pageFailure := some (.valueError "bad table") }

/-- Example document whose single page fails to extract. -/
def exBadDoc : Doc := { pages := [exBadPage], extractImage := fun _ => none }

/-- Example paths. -/
def goodFile : AbsPath := ["base", "docs", "a.pdf"]

/-- Example corrupt-content file path. -/
def badFile : AbsPath := ["base", "docs", "bad.pdf"]

/-- Example disallowed-extension file path. -/
def txtFile : AbsPath := ["base", "docs", "b.txt"]

/-- Example file path outside the configured base directory. -/
def outFile : AbsPath := ["out", "x.pdf"]

/-- Example directory path. -/
def docsDir : AbsPath := ["base", "docs"]

/-- Example byte input accepted by the engine. -/
def pdfBytes : List Nat := [37, 80, 68, 70]

/-- Example filesystem: three files under /base/docs, one outside. -/
def exFs : FileSystem :=
  { cwd := ["base"]
    isFile := fun p => p == goodFile || p == badFile || p == txtFile || p == outFile
    isDir := fun p => p == docsDir || p == (["base"] : AbsPath)
    openPath := fun p =>
      if p == goodFile then .ok exDoc
      else if p == badFile then .ok exBadDoc
      else if p == outFile then .ok exDoc
      else if p == txtFile then .ok exDoc
      else .error (.fileNotFoundError (pathToString p))
    openBytes := fun data =>
      if data == pdfBytes then .ok exDoc else .error (.valueError "cannot open stream")
    walkFiles := fun d =>
      if d == docsDir then [(docsDir, "a.pdf"), (docsDir, "bad.pdf"), (docsDir, "b.txt")]
      else [] }

/-- Example policy: enabled, base /base, pdf only. -/
def exCfg : SafeModeConfig :=
  { enabled := true, base_directory := ["base"], allowed_extensions := [".pdf"] }

/-- The extraction of exDoc under exEng. -/
def exDocResult : DocResult :=
  { pages :=
      [ { text := "Hello", tables := [], images := [] }
      , { text := "World", tables := [exTable]
          images := [{ content := "ocr-text", image_data := "AQID", xref := 7 }] } ] }

example :
    (sync_extract_pdf exEng exFs exCfg (.path ⟨true, goodFile⟩) true).outcome.result
      = .ok exDocResult := rfl

example :
    (async_extract_pdf exEng exFs exCfg (.path ⟨true, goodFile⟩) true).outcome.result
      = .ok exDocResult := rfl

example :
    (async_extract_pdf exEng exFs exCfg (.path ⟨true, goodFile⟩) true).yields = 2 := rfl

example :
    (sync_extract_pdf exEng exFs exCfg (.path ⟨true, badFile⟩) true).outcome.result
      = .error (.corruptPDF "bad table") := rfl

example :
    (sync_extract_pdfs_from_directory exEng exFs exCfg ⟨true, docsDir⟩ false).1
      = .ok [(relKeyStr ["a.pdf"], exDocResult)] := rfl

/-! Helper lemmas shared by the claim theorems. -/

/-- A successful synchronous page loop returns one entry per page, in
page order, each the extraction of the corresponding physical page. -/
theorem sync_pages_loop_spec (eng : EngineOps) (doc : Doc) :
    ∀ (ps : List RawPage) (cs : List PageContent),
      sync_pages_loop eng doc ps = .ok cs →
      cs.length = ps.length ∧
        ∀ i (hi : i < cs.length) (hp : i < ps.length),
          processPage eng doc (ps.get ⟨i, hp⟩) = .ok (cs.get ⟨i, hi⟩) := by
  intro ps
  induction ps with
  | nil =>
    intro cs h
    simp only [sync_pages_loop] at h
    cases h
    exact ⟨rfl, fun i hi hp => absurd hi (by simp)⟩
  | cons p rest ih =>
    intro cs h
    simp only [sync_pages_loop] at h
    cases hpp : processPage eng doc p with
    | error e => rw [hpp] at h; cases h
    | ok c =>
      rw [hpp] at h
      cases hrest : sync_pages_loop eng doc rest with
      | error e => rw [hrest] at h; cases h
      | ok cs2 =>
        rw [hrest] at h
        cases h
        obtain ⟨hlen, hget⟩ := ih cs2 hrest
        refine ⟨by simp [hlen], ?_⟩
        intro i hi hp
        cases i with
        | zero => simpa using hpp
        | succ j =>
          have hj : j < cs2.length := by simpa using hi
          have hj2 : j < rest.length := by simpa using hp
          simpa using hget j hj hj2

/-- The asynchronous page loop computes exactly the synchronous one in
its first component. -/
theorem async_pages_loop_fst (eng : EngineOps) (doc : Doc) :
    ∀ ps : List RawPage, (async_pages_loop eng doc ps).1 = sync_pages_loop eng doc ps := by
  intro ps
  induction ps with
  | nil => rfl
  | cons p rest ih =>
    simp only [async_pages_loop, sync_pages_loop]
    cases hpp : processPage eng doc p with
    | error e => rfl
    | ok c =>
      simp only []
      cases hrest : async_pages_loop eng doc rest with
      | mk r n =>
        rw [hrest] at ih
        cases r with
        | error e => rw [← ih]
        | ok cs => rw [← ih]

/-- The decorated synchronous extractor always hands the caller back
the global policy it started from (the finally block restores the
enabled flag, the only field the wrapper touched). -/
theorem sync_extract_pdf_cfgAfter (eng : EngineOps) (fs : FileSystem) (g : SafeModeConfig)
    (input_data : PDFInput) (b : Bool) :
    (sync_extract_pdf eng fs g input_data b).cfgAfter = g := rfl

/-- Threading the global policy through the per-file batch loop leaves
it unchanged, and every file whose extraction and relativization both
succeed contributes its entry to the loop's mapping. -/
theorem batch_files_loop_mem (eng : EngineOps) (fs : FileSystem) (directory_path : RawPath)
    (b : Bool) :
    ∀ (files : List AbsPath) (g : SafeModeConfig) (fp : AbsPath)
      (content : DocResult) (rel : List String),
      fp ∈ files →
      (sync_extract_pdf eng fs g (.path ⟨true, fp⟩) b).outcome.result = .ok content →
      relative_to fp directory_path = some rel →
      (relKeyStr rel, content) ∈ (batch_files_loop eng fs directory_path b files g).1 := by
  intro files
  induction files with
  | nil => intro g fp content rel hfp; cases hfp
  | cons hd tl ih =>
    intro g fp content rel hfp hok hrel
    have hcfg : (sync_extract_pdf eng fs g (.path ⟨true, hd⟩) b).cfgAfter = g := rfl
    rcases List.mem_cons.mp hfp with heq | htl
    · subst heq
      simp only [batch_files_loop, hcfg, hok, hrel]
      exact List.mem_cons_self _ _
    · have hmem := ih g fp content rel htl hok hrel
      simp only [batch_files_loop, hcfg]
      cases hres : (sync_extract_pdf eng fs g (.path ⟨true, hd⟩) b).outcome.result with
      | error e => exact hmem
      | ok c =>
        cases hr : relative_to hd directory_path with
        | none => exact hmem
        | some r => exact List.mem_cons_of_mem _ hmem

/-! Claim theorems. -/

/-- C1: with the per-call gate set (an enabled policy), validate_path
succeeds -- returning the resolved candidate -- exactly when the
resolved path is equal to or nested under the policy base directory
(component-wise prefix, so /root/allowed-other is rejected for base
/root/allowed) and its lower-cased suffix is an allowed extension;
every failure is of the PathAccessError kind. -/
theorem C1_validate_path_enabled (g : SafeModeConfig) (cwd : AbsPath) (fp : RawPath) :
    (validate_path g cwd fp true = .ok (fp.resolve cwd)
      ↔ (g.base_directory.isPrefixOf (fp.resolve cwd) = true
          ∧ strToLower (pathSuffix (fp.resolve cwd)) ∈ g.allowed_extensions))
    ∧ ∀ e, validate_path g cwd fp true = .error e → e.isPathAccess = true := by
  by_cases h1 : g.base_directory.isPrefixOf (fp.resolve cwd) = true
  · by_cases h2 : strToLower (pathSuffix (fp.resolve cwd)) ∈ g.allowed_extensions
    · constructor
      · simp [validate_path, h1, h2]
      · intro e he
        simp [validate_path, h1, h2] at he
    · constructor
      · simp [validate_path, h1, h2]
      · intro e he
        simp only [validate_path, h1, h2] at he
        simp at he
        rw [← he]
        rfl
  · constructor
    · simp [validate_path, h1]
    · intro e he
      simp only [validate_path, h1] at he
      simp at he
      rw [← he]
      rfl

/-- C1 witness: the component-ancestor check rejects
/root/allowed-other/x.pdf for base /root/allowed, with a
PathAccessError-kind failure. -/
theorem C1_validate_path_enabled_witness :
    PDFError.isPathAccess (.accessDenied ["root", "allowed-other", "x.pdf"]) = true :=
  (C1_validate_path_enabled ⟨true, ["root", "allowed"], [".pdf"]⟩ ["root"]
    ⟨true, ["root", "allowed-other", "x.pdf"]⟩).2
    (.accessDenied ["root", "allowed-other", "x.pdf"]) rfl

/-- C2: contrary to the claim, the extension check of validate_path is
not limited to candidates with a suffix: an existing directory nested
under the base directory has the empty suffix, which is not among the
allowed extensions, so under an enabled policy validation fails and
both dispatch entry points reject the directory instead of routing it
to batch extraction. -/
theorem C2_directory_rejected :
    validate_path exCfg exFs.cwd ⟨true, docsDir⟩ true = .error (.invalidFileType "")
    ∧ exFs.isDir docsDir = true
    ∧ (extract_pdfs_sync exEng exFs exCfg (.path ⟨true, docsDir⟩) true).1
        = .error (.invalidFileType "")
    ∧ extract_pdfs_async exEng exFs exCfg (.path ⟨true, docsDir⟩) true
        = .error (.invalidFileType "") :=
  ⟨rfl, rfl, rfl, rfl⟩

/-- C3: contrary to the claim, the per-call override safe_mode = false
does not lift the path restrictions of sync_extract_pdf: the decorator
consumes the keyword and only toggles the stored enabled flag, which
validate_path never reads, while the inner body validates with its own
default safe_mode = true; a file outside the base directory therefore
still fails with the (re-wrapped) access-denied error. -/
theorem C3_override_ineffective :
    (sync_extract_pdf exEng exFs exCfg (.path ⟨true, outFile⟩) false).outcome.result
      = .error (.extractionFailed (PDFError.message (.accessDenied outFile))) :=
  rfl

/-- C4 (amended): batch extraction never surfaces a per-file failure --
once the root validates and is a directory the call returns a mapping
-- and that mapping contains an entry for every walked file whose
extraction succeeds AND whose relativization against the root argument
as given succeeds (when the root is passed as a resolved absolute
path, that is every successfully extracted file). -/
theorem C4_batch_isolation (eng : EngineOps) (fs : FileSystem) (g : SafeModeConfig)
    (droot : RawPath) (b : Bool) (d : AbsPath)
    (h1 : validate_path g fs.cwd droot b = .ok d)
    (h2 : fs.isDir d = true) :
    ∃ m, (sync_extract_pdfs_from_directory eng fs g droot b).1 = .ok m ∧
      ∀ files, traverse_directory fs g droot b = .ok files →
        ∀ fp ∈ files, ∀ (content : DocResult) (rel : List String),
          (sync_extract_pdf eng fs g (.path ⟨true, fp⟩) b).outcome.result = .ok content →
          relative_to fp droot = some rel →
          (relKeyStr rel, content) ∈ m := by
  have htrav : traverse_directory fs g droot b
      = .ok ((fs.walkFiles d).filterMap fun rf =>
          (validate_path g fs.cwd ⟨true, rf.1 ++ [rf.2]⟩ b).toOption) := by
    simp [traverse_directory, h1, h2]
  refine ⟨(batch_files_loop eng fs droot b ((fs.walkFiles d).filterMap fun rf =>
      (validate_path g fs.cwd ⟨true, rf.1 ++ [rf.2]⟩ b).toOption) g).1, ?_, ?_⟩
  · simp [sync_extract_pdfs_from_directory, h1, h2, htrav]
  · intro files hfiles fp hfp content rel hok hrel
    have hL := Except.ok.inj (htrav.symm.trans hfiles)
    rw [← hL] at hfp
    exact batch_files_loop_mem eng fs droot b _ g fp content rel hfp hok hrel

/-- C4 witness: in the example world, with the root passed as the
resolved absolute directory, the one extractable file appears in the
batch mapping under its relative key. -/
theorem C4_batch_isolation_witness :
    (relKeyStr ["a.pdf"], exDocResult) ∈ [(relKeyStr ["a.pdf"], exDocResult)] := by
  obtain ⟨m, hm, hmem⟩ :=
    C4_batch_isolation exEng exFs exCfg ⟨true, docsDir⟩ false docsDir rfl rfl
  have hm2 : m = [(relKeyStr ["a.pdf"], exDocResult)] := by
    have h3 : (Except.ok m : Except PDFError _)
        = .ok [(relKeyStr ["a.pdf"], exDocResult)] := by
      rw [← hm]; rfl
    exact Except.ok.inj h3
  rw [← hm2]
  exact hmem _ rfl goodFile (List.mem_cons_self _ _) exDocResult ["a.pdf"] rfl rfl

/-- C4 counterexample: with the root given as a relative path (which
resolves and validates fine), relativization of every walked file
fails, so a file whose extraction succeeds is silently dropped and the
batch mapping comes back empty -- the claim's "mapping containing
every successfully extracted file" is false as stated. -/
theorem C4_relative_root_drops_entries :
    (sync_extract_pdfs_from_directory exEng exFs exCfg ⟨false, ["docs"]⟩ false).1 = .ok []
    ∧ (sync_extract_pdf exEng exFs exCfg (.path ⟨true, goodFile⟩) false).outcome.result
        = .ok exDocResult
    ∧ traverse_directory exFs exCfg ⟨false, ["docs"]⟩ false = .ok [goodFile, badFile, txtFile] :=
  ⟨rfl, rfl, rfl⟩

/-- C5: contrary to the claim, the synchronous and the asynchronous
extractor are not output-identical for every identical input and
policy: for a path outside the base directory with safe_mode = false
the synchronous variant (whose decorator swallows the override) fails
with the wrapped access-denied error while the asynchronous variant
(which forwards its safe_mode argument) returns the full document. -/
theorem C5_mode_divergence :
    (sync_extract_pdf exEng exFs exCfg (.path ⟨true, outFile⟩) false).outcome.result
      = .error (.extractionFailed (PDFError.message (.accessDenied outFile)))
    ∧ (async_extract_pdf exEng exFs exCfg (.path ⟨true, outFile⟩) false).outcome.result
        = .ok exDocResult :=
  ⟨rfl, rfl⟩

/-- C6: whenever an extraction call accepts a document, the resulting
pages are exactly the per-page extractions of the physical pages, in
increasing index order, in both execution modes. -/
theorem C6_page_order (eng : EngineOps) (fs : FileSystem) (g : SafeModeConfig)
    (input_data : PDFInput) (b : Bool) (doc : Doc) :
    (open_document fs { g with enabled := b } input_data true = .ok doc →
      ∀ r, (sync_extract_pdf eng fs g input_data b).outcome.result = .ok r →
        r.pages.length = doc.pages.length ∧
          ∀ i (hi : i < r.pages.length) (hp : i < doc.pages.length),
            processPage eng doc (doc.pages.get ⟨i, hp⟩) = .ok (r.pages.get ⟨i, hi⟩))
    ∧ (open_document fs g input_data b = .ok doc →
      ∀ r, (async_extract_pdf eng fs g input_data b).outcome.result = .ok r →
        r.pages.length = doc.pages.length ∧
          ∀ i (hi : i < r.pages.length) (hp : i < doc.pages.length),
            processPage eng doc (doc.pages.get ⟨i, hp⟩) = .ok (r.pages.get ⟨i, hi⟩)) := by
  constructor
  · intro hopen r hr
    have heq : (sync_extract_pdf eng fs g input_data b).outcome.result
        = (sync_extract_pdf_inner eng fs { g with enabled := b } input_data true).result := rfl
    rw [heq] at hr
    simp only [sync_extract_pdf_inner, hopen] at hr
    cases hloop : sync_pages_loop eng doc doc.pages with
    | error e => rw [hloop] at hr; cases hr
    | ok pages =>
      rw [hloop] at hr
      simp only [] at hr
      cases hr
      exact sync_pages_loop_spec eng doc doc.pages pages hloop
  · intro hopen r hr
    simp only [async_extract_pdf, hopen] at hr
    have hfst := async_pages_loop_fst eng doc doc.pages
    cases hpair : async_pages_loop eng doc doc.pages with
    | mk res n =>
      rw [hpair] at hr hfst
      cases res with
      | error e => simp at hr
      | ok pages =>
        simp only [] at hr
        cases hr
        exact sync_pages_loop_spec eng doc doc.pages pages hfst.symm

/-- C6 witness: the two-page example document extracts to a result
with matching page count through the public synchronous entry point. -/
theorem C6_page_order_witness :
    exDocResult.pages.length = exDoc.pages.length :=
  ((C6_page_order exEng exFs exCfg (.bytes pdfBytes) true exDoc).1 rfl exDocResult rfl).1

/-- C7: contrary to the claim, no exit path of either extractor
releases the document handle: the source contains no close call, no
context manager and no finally around the document, so the handle
opened for the call is still open when the call returns a result and
when it raises mid-extraction. -/
theorem C7_handle_never_released :
    (sync_extract_pdf exEng exFs exCfg (.path ⟨true, goodFile⟩) true).outcome.openHandles = 1
    ∧ (sync_extract_pdf exEng exFs exCfg (.path ⟨true, badFile⟩) true).outcome.result
        = .error (.corruptPDF "bad table")
    ∧ (sync_extract_pdf exEng exFs exCfg (.path ⟨true, badFile⟩) true).outcome.openHandles = 1
    ∧ (async_extract_pdf exEng exFs exCfg (.path ⟨true, goodFile⟩) true).outcome.openHandles = 1 :=
  ⟨rfl, rfl, rfl, rfl⟩

/-- C8: the scoped override of sync_extract_pdf restores the
process-wide policy (in particular its enabled flag) on every exit
path: for every engine, filesystem, input and override value, the
policy handed back equals the policy the call started from. -/
theorem C8_policy_restored (eng : EngineOps) (fs : FileSystem) (g : SafeModeConfig)
    (input_data : PDFInput) (b : Bool) :
    (sync_extract_pdf eng fs g input_data b).cfgAfter.enabled = g.enabled
    ∧ (sync_extract_pdf eng fs g input_data b).cfgAfter = g :=
  ⟨rfl, rfl⟩

/-- C9: contrary to the claim, the auto-detecting entry point is not
semantically identical on its two paths: for the same file path,
policy and safe_mode = false, a synchronous ambient context yields the
wrapped access-denied failure while an asynchronous ambient context
yields a task carrying the extracted document. -/
theorem C9_dispatch_divergence :
    extract_pdfs exEng exFs false exCfg (.path ⟨true, outFile⟩) false
      = .finished (.error (.extractionFailed (PDFError.message (.accessDenied outFile)))) exCfg
    ∧ extract_pdfs exEng exFs true exCfg (.path ⟨true, outFile⟩) false
      = .task (.ok (.single exDocResult)) :=
  ⟨rfl, rfl⟩

/-- C10: the outcome of validate_path is independent of the stored
enabled flag: overwriting that flag, or rebuilding the policy via
set_safe_mode with a different enabled argument, leaves validate_path
literally unchanged for every candidate and every per-call gate. -/
theorem C10_enabled_flag_irrelevant (g : SafeModeConfig) (cwd : AbsPath) (fp : RawPath)
    (b e1 e2 : Bool) (bd : Option RawPath) (exts : Option (List String)) :
    validate_path { g with enabled := e1 } cwd fp b = validate_path g cwd fp b
    ∧ validate_path (set_safe_mode cwd e1 bd exts) cwd fp b
        = validate_path (set_safe_mode cwd e2 bd exts) cwd fp b :=
  ⟨rfl, rfl⟩

end MissingText
